import Mathlib

/-!
Shallow embedding of the Strawberry music player's collection filtering engine
(src/collection/collectionfilter.cpp) and dynamic SQL query builder
(src/collection/collectionquery.cpp), together with theorems checking the
natural-language specification against the code.

Strings are modelled as lists of characters (`QStr`), QString operations as
recursive functions on them, QMap<QString, QString> as an association list with
replace-on-insert, and QVariant as the inductive `SqlValue`.
-/

/-- Model of QString: a list of characters. -/
abbrev QStr := List Char

/-- Whitespace class of the regular expression backslash-s used by
`filter.split(QRegularExpression("\\s+"))`. -/
def isWs (c : Char) : Bool :=
  c = ' ' ∨ c = '\t' ∨ c = '\n' ∨ c = '\r' ∨ c = '\x0b' ∨ c = '\x0c'

/-- Character-wise lowercasing, modelling Qt's case-insensitive comparisons
(all inputs of interest are ASCII). -/
def lowerStr (s : QStr) : QStr := s.map Char.toLower

/-- Whether `needle` occurs at the start of `hay`. -/
def startsWith : QStr → QStr → Bool
  | [], _ => true
  | _ :: _, [] => false
  | a :: as, b :: bs => decide (a = b) && startsWith as bs

/-- Whether `needle` occurs contiguously anywhere in `hay`
(QString::contains with case-sensitive comparison). -/
def occursIn (needle : QStr) : QStr → Bool
  | [] => startsWith needle []
  | c :: rest => startsWith needle (c :: rest) || occursIn needle rest

/-- Model of `hay.contains(needle, Qt::CaseInsensitive)`. -/
def containsCI (hay needle : QStr) : Bool :=
  occursIn (lowerStr needle) (lowerStr hay)

/-- Drop leading whitespace. -/
def trimLeft : QStr → QStr
  | [] => []
  | c :: rest => if isWs c then trimLeft rest else c :: rest

/-- Model of QString::trimmed: drop leading and trailing whitespace. -/
def trim (s : QStr) : QStr := (trimLeft (trimLeft s).reverse).reverse

/-- Model of QString::remove(':'): delete every colon. -/
def removeColons : QStr → QStr
  | [] => []
  | c :: rest => if c = ':' then removeColons rest else c :: removeColons rest

/-- Model of `token.section(':', 0, 0)`: the text before the first colon
(the whole string when there is no colon). -/
def sectionBefore : QStr → QStr
  | [] => []
  | c :: rest => if c = ':' then [] else c :: sectionBefore rest

/-- Model of `token.section(':', 1, -1)`: the text after the first colon,
interior colons kept (empty when there is no colon). -/
def sectionAfter : QStr → QStr
  | [] => []
  | c :: rest => if c = ':' then rest else sectionAfter rest

/-- Accumulator-style worker for `tokenize`; `acc` holds the pending token
reversed. -/
def tokenizeAux : QStr → QStr → List QStr
  | [], acc => if acc = [] then [] else [acc.reverse]
  | c :: rest, acc =>
    if isWs c then
      if acc = [] then tokenizeAux rest [] else acc.reverse :: tokenizeAux rest []
    else
      tokenizeAux rest (c :: acc)

/-- Model of `filter.split(QRegularExpression("\\s+"), SkipEmptyParts)`:
split on runs of whitespace, discarding empty tokens. -/
def tokenize (s : QStr) : List QStr := tokenizeAux s []

/-- Modelled from the spec: `Song::kColumns` lives in core/song.cpp, which is
not part of the excerpt; the spec fixes the recognized tag names as exactly
albumartist, artist, album, title, genre, composer, performer, grouping and
filetype. -/
def kColumns : List QStr :=
  ["albumartist".data, "artist".data, "album".data, "title".data, "genre".data,
   "composer".data, "performer".data, "grouping".data, "filetype".data]

/-- Model of `Song::kColumns.contains(text, Qt::CaseInsensitive)`. -/
def kColumnsContainsCI (text : QStr) : Bool :=
  kColumns.any (fun c => decide (lowerStr text = c))

/-- Association list standing for QMap<QString, QString>; keys are unique. -/
abbrev TagMap := List (QStr × QStr)

/-- Model of `QMap::insert`: replace the value when the key is present,
otherwise add the pair. -/
def mapInsert (k v : QStr) : TagMap → TagMap
  | [] => [(k, v)]
  | (k1, v1) :: rest => if k1 = k then (k, v) :: rest else (k1, v1) :: mapInsert k v rest

/-- Model of `QMap::contains` / `operator[]` combined: the value stored under
an exactly matching key. -/
def mapLookup (k : QStr) : TagMap → Option QStr
  | [] => none
  | (k1, v1) :: rest => if k1 = k then some v1 else mapLookup k rest

/-- Processing of a single token by the loop in
`CollectionFilter::filterAcceptsRow` (collectionfilter.cpp lines 63-84).
The state is the free-text accumulator paired with the tag map. -/
def parseStep (st : QStr × TagMap) (token : QStr) : QStr × TagMap :=
  if ':' ∈ token then
    if kColumnsContainsCI (sectionBefore token) then
      let tag := trim (removeColons (sectionBefore token))
      let value := trim (removeColons (sectionAfter token))
      if tag ≠ [] ∧ value ≠ [] then (st.1, mapInsert tag value st.2) else st
    else
      let token1 := trim (removeColons token)
      if token1 ≠ [] then ((if st.1 = [] then st.1 else st.1 ++ [' ']) ++ token1, st.2)
      else st
  else
    ((if st.1 = [] then st.1 else st.1 ++ [' ']) ++ token, st.2)

/-- The parsing pass of `CollectionFilter::filterAcceptsRow`
(collectionfilter.cpp lines 54-84): tokenize the filter string, then fold the
token loop; yields the free-text remainder and the tag map. -/
def CollectionFilterParse (raw : QStr) : QStr × TagMap :=
  (tokenize raw).foldl parseStep ([], [])

/-- Grouping keys of the collection tree (CollectionModel::GroupBy). -/
inductive GroupBy where
  | AlbumArtist | Artist | Album | AlbumDisc | YearAlbum | YearAlbumDisc
  | OriginalYearAlbum | OriginalYearAlbumDisc | Disc | Year | OriginalYear
  | Genre | Composer | Performer | Grouping | FileType | Format | Bitdepth
  | Samplerate | Bitrate | None | GroupByCount
deriving DecidableEq

/-- Song metadata fields consumed by the filter (core/song is outside the
excerpt; the fields and the validity flag are data carried by the node). -/
structure Song where
  valid : Bool
  effective_albumartist : QStr
  artist : QStr
  album : QStr
  title : QStr
deriving DecidableEq

/-- Node kinds of CollectionItem (collectionitem.h); only
Type_LoadingIndicator is inspected by the filter. -/
inductive ItemType where
  | Root | Container | SongItem | LoadingIndicator | Divider
deriving DecidableEq

/-- Model of CollectionItem: display text, song metadata, container level
(-1 for non-container nodes) and owned children. -/
inductive CollectionItem where
  | node (typ : ItemType) (display : QStr) (metadata : Song)
         (container_level : Int) (children : List CollectionItem)

def CollectionItem.typ : CollectionItem → ItemType
  | .node t _ _ _ _ => t

def CollectionItem.display : CollectionItem → QStr
  | .node _ d _ _ _ => d

def CollectionItem.metadata : CollectionItem → Song
  | .node _ _ md _ _ => md

def CollectionItem.container_level : CollectionItem → Int
  | .node _ _ _ lvl _ => lvl

def CollectionItem.children : CollectionItem → List CollectionItem
  | .node _ _ _ _ cs => cs

/-- The part of CollectionModel the filter reads: the grouping scheme,
`GetGroupBy()[level]` (only levels 0..2 are consulted, behind the guard in
ItemMatches). -/
structure CollectionModelT where
  group_by : Int → GroupBy

/-- Model of `CollectionFilter::TagMatches(item, tags)` (song overload,
collectionfilter.cpp lines 126-141): short-circuit over the map entries,
lowercasing each key before the comparisons. -/
def TagMatchesSong (item : CollectionItem) (tags : TagMap) : Bool :=
  tags.any (fun p =>
    let tag := lowerStr p.1
    let value := p.2
    (decide (tag = "albumartist".data) && containsCI item.metadata.effective_albumartist value) ||
    (decide (tag = "artist".data) && containsCI item.metadata.artist value) ||
    (decide (tag = "album".data) && containsCI item.metadata.album value) ||
    (decide (tag = "title".data) && containsCI item.metadata.title value))

/-- The switch on the grouping key in the container overload of TagMatches
(collectionfilter.cpp lines 145-187); `[]` stands for the QString left unset. -/
def groupByTag : GroupBy → QStr
  | .AlbumArtist => "albumartist".data
  | .Artist => "artist".data
  | .Album => "album".data
  | .AlbumDisc => "album".data
  | .YearAlbum => "album".data
  | .YearAlbumDisc => "album".data
  | .OriginalYearAlbum => "album".data
  | .OriginalYearAlbumDisc => "album".data
  | .Genre => "genre".data
  | .Composer => "composer".data
  | .Performer => "performer".data
  | .Grouping => "grouping".data
  | .FileType => "filetype".data
  | _ => []

/-- Model of `CollectionFilter::TagMatches(item, group_by, tags)` (container
overload, collectionfilter.cpp lines 143-196): map the grouping key to a tag
name, look it up exactly in the map, and substring-match the display text. -/
def TagMatchesContainer (item : CollectionItem) (group_by : GroupBy) (tags : TagMap) : Bool :=
  let tag := groupByTag group_by
  let value :=
    if tag ≠ [] then
      match mapLookup tag tags with
      | some v => v
      | none => []
    else []
  decide (value ≠ []) && containsCI item.display value

/-- Model of `CollectionFilter::ItemMatches` (collectionfilter.cpp lines
96-112). -/
def ItemMatches (m : CollectionModelT) (item : CollectionItem) (tags : TagMap) (filter : QStr) : Bool :=
  (decide (filter = []) || containsCI item.display filter)
  &&
  (decide (tags = [])
   || (item.metadata.valid && TagMatchesSong item tags)
   || (decide (0 ≤ item.container_level) && decide (item.container_level ≤ 2)
       && TagMatchesContainer item (m.group_by item.container_level) tags))

mutual

/-- Model of `CollectionFilter::ChildrenMatches` (collectionfilter.cpp lines
114-124): the item itself, or, depth-first with short-circuit, any child
subtree. -/
def ChildrenMatches (m : CollectionModelT) (tags : TagMap) (filter : QStr) : CollectionItem → Bool
  | .node t d md lvl cs =>
    ItemMatches m (.node t d md lvl cs) tags filter || childrenAnyMatches m tags filter cs

/-- The for-loop over `item->children` inside ChildrenMatches. -/
def childrenAnyMatches (m : CollectionModelT) (tags : TagMap) (filter : QStr) : List CollectionItem → Bool
  | [] => false
  | c :: cs => ChildrenMatches m tags filter c || childrenAnyMatches m tags filter cs

end

/-- The for-loop over the parent chain in filterAcceptsRow (collectionfilter.cpp
lines 88-90); the ancestor chain is passed explicitly, nearest parent first. -/
def ancestorAnyMatches (m : CollectionModelT) (tags : TagMap) (filter : QStr) : List CollectionItem → Bool
  | [] => false
  | p :: ps => ItemMatches m p tags filter || ancestorAnyMatches m tags filter ps

/-- Lines 86-92 of filterAcceptsRow: the visibility decision taken after the
sentinel check and the parse, with the code's early returns. -/
def VisibleDecision (m : CollectionModelT) (item : CollectionItem)
    (ancestors : List CollectionItem) (tags : TagMap) (filter : QStr) : Bool :=
  if ItemMatches m item tags filter then true
  else if ancestorAnyMatches m tags filter ancestors then true
  else ChildrenMatches m tags filter item

/-- Model of `CollectionFilter::filterAcceptsRow` (collectionfilter.cpp lines
35-94).  `source` is the result of the qobject_cast of sourceModel(),
`indexValid` the validity of the looked-up QModelIndex, and `item` the result
of IndexToItem together with the node's ancestor chain. -/
def filterAcceptsRow (source : Option CollectionModelT) (indexValid : Bool)
    (item : Option (CollectionItem × List CollectionItem)) (rawFilter : QStr) : Bool :=
  match source with
  | none => false
  | some m =>
    match indexValid with
    | false => false
    | true =>
      match item with
      | none => false
      | some (it, ancestors) =>
        if it.typ = ItemType.LoadingIndicator then true
        else if rawFilter = [] then true
        else
          let parsed := CollectionFilterParse rawFilter
          VisibleDecision m it ancestors parsed.2 parsed.1

mutual

/-- All nodes of the subtree rooted at an item, the item included, in
depth-first order; used to state what ChildrenMatches searches. -/
def subtreeItems : CollectionItem → List CollectionItem
  | .node t d md lvl cs => .node t d md lvl cs :: subtreeItemsList cs

/-- Subtree nodes of a list of siblings, concatenated in order. -/
def subtreeItemsList : List CollectionItem → List CollectionItem
  | [] => []
  | c :: cs => subtreeItems c ++ subtreeItemsList cs

end

/-- Digit character for a single decimal digit (any larger argument is
unreachable in natToStrAux). -/
def digitChar : Nat → Char
  | 0 => '0'
  | 1 => '1'
  | 2 => '2'
  | 3 => '3'
  | 4 => '4'
  | 5 => '5'
  | 6 => '6'
  | 7 => '7'
  | 8 => '8'
  | 9 => '9'
  | _ + 10 => '*'

/-- Decimal digits of `n` prepended to `acc`; the first argument is fuel that
dominates the digit count (`n + 1` always suffices) and keeps the recursion
structural. -/
def natToStrAux : Nat → Nat → QStr → QStr
  | 0, _, acc => acc
  | fuel + 1, n, acc =>
    if n < 10 then digitChar n :: acc
    else natToStrAux fuel (n / 10) (digitChar (n % 10) :: acc)

/-- Decimal rendering of a natural number. -/
def natToStr (n : Nat) : QStr := natToStrAux (n + 1) n []

/-- Model of `QString::number` / `QVariant::toString` for integers. -/
def intToStr (n : Int) : QStr :=
  if n < 0 then '-' :: natToStr n.natAbs else natToStr n.toNat

/-- Number of `?` placeholders occurring in a clause fragment. -/
def countQ (s : QStr) : Nat := s.countP (fun c => decide (c = '?'))

/-- Total number of `?` placeholders over a clause list, in emission order. -/
def totalQ (l : List QStr) : Nat := (l.map countQ).sum

/-- Model of QStringList::join. -/
def joinSep (sep : QStr) : List QStr → QStr
  | [] => []
  | [x] => x
  | x :: y :: rest => x ++ sep ++ joinSep sep (y :: rest)

/-- When `pat` starts `s`, the remainder of `s` after it. -/
def peelStart : QStr → QStr → Option QStr
  | [], s => some s
  | _ :: _, [] => none
  | a :: as, b :: bs => if a = b then peelStart as bs else none

/-- Worker for `replaceAll` with a non-empty pattern `p :: ps`: scan left to
right, replace each occurrence and continue after it.  The fuel argument
dominates the scanned length (the string shrinks at every step, so
`s.length + 1` always suffices) and keeps the recursion structural. -/
def replaceFrom (p : Char) (ps rep : QStr) : Nat → QStr → QStr
  | 0, s => s
  | _ + 1, [] => []
  | fuel + 1, c :: rest =>
    if c = p then
      match peelStart ps rest with
      | some rem => rep ++ replaceFrom p ps rep fuel rem
      | none => c :: replaceFrom p ps rep fuel rest
    else c :: replaceFrom p ps rep fuel rest

/-- Model of `QString::replace(before, after)` for the non-empty literal
pattern used by Exec. -/
def replaceAll (pat rep s : QStr) : QStr :=
  match pat with
  | [] => s
  | p :: ps => replaceFrom p ps rep (s.length + 1) s

/-- Model of QVariant restricted to the value kinds the query builder stores:
int (QMetaType::Int), qint64 (LongLong, used for the ctime cutoff), non-null
strings, the null QString, floats (carried exactly as rationals) and string
lists. -/
inductive SqlValue where
  | vInt (n : Int)
  | vInt64 (n : Int)
  | vStr (s : QStr)
  | vNullStr
  | vFloat (q : ℚ)
  | vStrList (l : List QStr)
deriving DecidableEq

/-- Whether the QVariant check `value.metaType().id() == QMetaType::Int`
succeeds. -/
def isIntValue : SqlValue → Bool
  | .vInt _ => true
  | _ => false

/-- Whether the QVariant check for a string that `isNull()` succeeds. -/
def isNullStringValue : SqlValue → Bool
  | .vNullStr => true
  | _ => false

/-- Model of `QVariant::toString` for the values rendered inline (only
integers reach it in AddWhere). -/
def sqlValueToString : SqlValue → QStr
  | .vInt n => intToStr n
  | .vInt64 n => intToStr n
  | .vStr s => s
  | _ => []

/-- Model of `QVariant::toStringList` (a lone QString converts to a singleton
list; non-list, non-string values convert to the empty list). -/
def toStringList : SqlValue → List QStr
  | .vStrList l => l
  | .vStr s => [s]
  | _ => []

/-- Modelled from the spec: collectionfilteroptions.h is outside the excerpt;
the filter modes consumed by the constructor are duplicates-only, untagged and
the default pass-through mode. -/
inductive FilterMode where
  | FilterAll | Duplicates | Untagged
deriving DecidableEq

/-- Modelled from the spec: the filter options read by the constructor — the
max-age cutoff (-1 when disabled) and the filter mode. -/
structure CollectionFilterOptions where
  max_age : Int
  filter_mode : FilterMode
deriving DecidableEq

/-- Builder state of CollectionQuery: column spec, songs table, ordered WHERE
fragments, ordered bound values, ORDER BY clause, row limit and the two
flags. -/
structure CollectionQuery where
  column_spec : QStr
  songs_table : QStr
  where_clauses : List QStr
  bound_values : List SqlValue
  order_by : QStr
  limit : Int
  include_unavailable : Bool
  duplicates_only : Bool
deriving DecidableEq

/-- Model of the CollectionQuery constructor (collectionquery.cpp lines
41-61); `now` stands for QDateTime::currentDateTime().toSecsSinceEpoch(). -/
def CollectionQueryInit (songs_table : QStr) (options : CollectionFilterOptions) (now : Int) : CollectionQuery :=
  let st0 : CollectionQuery :=
    { column_spec := [], songs_table := songs_table, where_clauses := [],
      bound_values := [], order_by := [], limit := -1,
      include_unavailable := false,
      duplicates_only := decide (options.filter_mode = FilterMode.Duplicates) }
  let st1 :=
    if options.max_age ≠ -1 then
      { st0 with where_clauses := st0.where_clauses ++ ["ctime > ?".data],
                 bound_values := st0.bound_values ++ [SqlValue.vInt64 (now - options.max_age)] }
    else st0
  if options.filter_mode = FilterMode.Untagged then
    { st1 with where_clauses := st1.where_clauses ++ ["(artist = '' OR album = '' OR title ='')".data] }
  else st1

/-- Model of `CollectionQuery::AddWhere` (collectionquery.cpp lines 81-120):
IN-lists get one placeholder per element; integers are inlined as literals;
null strings are rewritten to a bound empty string; everything else is bound
through a single placeholder. -/
def AddWhere (st : CollectionQuery) (column : QStr) (value : SqlValue) (op : QStr) : CollectionQuery :=
  if lowerStr op = "in".data then
    let values := toStringList value
    { st with
      where_clauses := st.where_clauses ++
        [column ++ " IN (".data ++ joinSep ",".data (values.map (fun _ => "?".data)) ++ ")".data],
      bound_values := st.bound_values ++ values.map SqlValue.vStr }
  else if isIntValue value then
    { st with where_clauses := st.where_clauses ++
        [column ++ " ".data ++ op ++ " ".data ++ sqlValueToString value] }
  else if isNullStringValue value then
    { st with where_clauses := st.where_clauses ++ [column ++ " ".data ++ op ++ " ?".data],
              bound_values := st.bound_values ++ [SqlValue.vStr []] }
  else
    { st with where_clauses := st.where_clauses ++ [column ++ " ".data ++ op ++ " ?".data],
              bound_values := st.bound_values ++ [value] }

/-- Model of `CollectionQuery::AddWhereArtist` (collectionquery.cpp lines
122-128). -/
def AddWhereArtist (st : CollectionQuery) (value : SqlValue) : CollectionQuery :=
  { st with
    where_clauses := st.where_clauses ++ ["((artist = ? AND albumartist = '') OR albumartist = ?)".data],
    bound_values := st.bound_values ++ [value, value] }

/-- Model of `CollectionQuery::AddWhereRating` (collectionquery.cpp lines
130-159).  Modelled from the spec: Utilities::ParseSearchRating
(utilities/searchparserutils.cpp) is outside the excerpt, so the parsed
rating is taken as the parameter `parsed_rating` standing for its result; the
float arithmetic on the 0.001 tolerance is carried exactly as rationals. -/
def AddWhereRating (st : CollectionQuery) (parsed_rating : ℚ) (op : QStr) : CollectionQuery :=
  let tolerance : ℚ := 1/1000
  if op = "<".data then AddWhere st "rating".data (.vFloat (parsed_rating - tolerance)) "<".data
  else if op = ">".data then AddWhere st "rating".data (.vFloat (parsed_rating + tolerance)) ">".data
  else if op = "<=".data then AddWhere st "rating".data (.vFloat (parsed_rating + tolerance)) "<=".data
  else if op = ">=".data then AddWhere st "rating".data (.vFloat (parsed_rating - tolerance)) ">=".data
  else if op = "<>".data then
    { st with where_clauses := st.where_clauses ++ ["(rating<? OR rating>?)".data],
              bound_values := st.bound_values ++
                [.vFloat (parsed_rating - tolerance), .vFloat (parsed_rating + tolerance)] }
  else
    AddWhere (AddWhere st "rating".data (.vFloat (parsed_rating + tolerance)) "<".data)
      "rating".data (.vFloat (parsed_rating - tolerance)) ">".data

/-- Model of `CollectionQuery::AddCompilationRequirement` (collectionquery.cpp
lines 161-165); the leading unary `+` is kept verbatim. -/
def AddCompilationRequirement (st : CollectionQuery) (compilation : Bool) : CollectionQuery :=
  { st with where_clauses := st.where_clauses ++
      ["+compilation_effective = ".data ++ (if compilation then "1".data else "0".data)] }

/-- Model of `CollectionQuery::GetInnerQuery` (collectionquery.cpp lines
167-174). -/
def GetInnerQuery (st : CollectionQuery) : QStr :=
  if st.duplicates_only then
    (" INNER JOIN (select * from duplicated_songs) dsongs        " ++
     "ON (%songs_table.artist = dsongs.dup_artist       " ++
     "AND %songs_table.album = dsongs.dup_album     " ++
     "AND %songs_table.title = dsongs.dup_title)    ").data
  else []

/-- The clause list Exec joins into the WHERE text: the accumulated clauses
plus `unavailable = 0` unless include_unavailable is set (collectionquery.cpp
lines 180-183). -/
def execClauses (st : CollectionQuery) : List QStr :=
  st.where_clauses ++ (if st.include_unavailable then [] else ["unavailable = 0".data])

/-- Rendering stage of Exec: `SELECT %1 FROM %2 %3` (collectionquery.cpp line
178). -/
def renderSelectFrom (st : CollectionQuery) : QStr :=
  "SELECT ".data ++ st.column_spec ++ " FROM ".data ++ st.songs_table ++ " ".data ++ GetInnerQuery st

/-- Rendering stage of Exec after the WHERE append (collectionquery.cpp line
185). -/
def renderWithWhere (st : CollectionQuery) : QStr :=
  if execClauses st = [] then renderSelectFrom st
  else renderSelectFrom st ++ " WHERE ".data ++ joinSep " AND ".data (execClauses st)

/-- Rendering stage of Exec after the ORDER BY append (collectionquery.cpp
line 187). -/
def renderWithOrder (st : CollectionQuery) : QStr :=
  if st.order_by = [] then renderWithWhere st
  else renderWithWhere st ++ " ORDER BY ".data ++ st.order_by

/-- Rendering stage of Exec after the LIMIT append (collectionquery.cpp line
189). -/
def renderSqlCore (st : CollectionQuery) : QStr :=
  if st.limit = -1 then renderWithOrder st
  else renderWithOrder st ++ " LIMIT ".data ++ intToStr st.limit

/-- The SQL text Exec hands to prepare, after the %songs_table substitution
(collectionquery.cpp lines 176-193); the bound values are then bound in list
order. -/
def renderSql (st : CollectionQuery) : QStr :=
  replaceAll "%songs_table".data st.songs_table (renderSqlCore st)

/-- One builder operation, for stating invariants over arbitrary call
sequences. -/
inductive QueryOp where
  | opWhere (column : QStr) (value : SqlValue) (operation : QStr)
  | opWhereArtist (value : SqlValue)
  | opWhereRating (parsed_rating : ℚ) (operation : QStr)
  | opCompilation (b : Bool)

/-- Apply one builder operation. -/
def applyOp (st : CollectionQuery) : QueryOp → CollectionQuery
  | .opWhere c v o => AddWhere st c v o
  | .opWhereArtist v => AddWhereArtist st v
  | .opWhereRating q o => AddWhereRating st q o
  | .opCompilation b => AddCompilationRequirement st b

/-- Apply a sequence of builder operations in order. -/
def applyOps (st : CollectionQuery) (ops : List QueryOp) : CollectionQuery :=
  ops.foldl applyOp st

/-- Well-formedness of an operation's caller-supplied name strings: column
names and operator strings contain no `?` of their own (so every `?` in a
clause is a placeholder). -/
def opOK : QueryOp → Bool
  | .opWhere c _ o => decide (countQ c = 0) && decide (countQ o = 0)
  | .opWhereArtist _ => true
  | .opWhereRating _ _ => true
  | .opCompilation _ => true

/-- Sample default-constructed builder state for the concrete instances. -/
def sampleQuery : CollectionQuery :=
  { column_spec := [], songs_table := "songs".data, where_clauses := [],
    bound_values := [], order_by := [], limit := -1,
    include_unavailable := false, duplicates_only := false }

/-- Sample state with a negative row limit other than -1. -/
def sampleQueryLimNeg : CollectionQuery := { sampleQuery with limit := -2 }

/-- Sample state with a non-negative row limit. -/
def sampleQueryLim5 : CollectionQuery := { sampleQuery with limit := 5 }

/-- Sample song metadata. -/
def sampleSong : Song :=
  { valid := true, effective_albumartist := "Daft Punk".data,
    artist := "Daft Punk".data, album := "Discovery".data,
    title := "One More Time".data }

/-- Invalid metadata carried by container nodes. -/
def emptySong : Song :=
  { valid := false, effective_albumartist := [], artist := [], album := [], title := [] }

/-- Sample song leaf node. -/
def sampleSongItem : CollectionItem :=
  .node .SongItem "One More Time".data sampleSong (-1) []

/-- Sample container node holding the sample song. -/
def sampleContainer : CollectionItem :=
  .node .Container "Daft Punk".data emptySong 0 [sampleSongItem]

/-- Sample grouping scheme: group by artist at every level. -/
def sampleModel : CollectionModelT := ⟨fun _ => GroupBy.Artist⟩

/-- Sample filter options with a max-age cutoff and untagged mode. -/
def sampleOpts : CollectionFilterOptions := { max_age := 100, filter_mode := .Untagged }

/-- Sample builder operation sequence exercising every operation kind. -/
def sampleOps : List QueryOp :=
  [.opWhere "track".data (.vStrList ["1".data, "2".data, "3".data]) "IN".data,
   .opWhereArtist (.vStr "Daft Punk".data),
   .opWhereRating 4 "=".data,
   .opCompilation true,
   .opWhere "year".data (.vInt 2020) "=".data]

/-- A tag map is well-formed when no two entries carry the same key. -/
def KeysNodup (m : TagMap) : Prop := (m.map Prod.fst).Nodup

/-- Whether a string contains any whitespace character. -/
def hasWs (s : QStr) : Bool := s.any isWs

/-- The lock-step invariant of the builder: the number of placeholders over
the accumulated clauses, in emission order, equals the number of accumulated
bound values. -/
def queryInv (st : CollectionQuery) : Prop :=
  totalQ st.where_clauses = st.bound_values.length

theorem ancestorAnyMatches_iff (m : CollectionModelT) (tags : TagMap) (f : QStr)
    (l : List CollectionItem) :
    ancestorAnyMatches m tags f l = true ↔ ∃ a ∈ l, ItemMatches m a tags f = true := by
  induction l with
  | nil => simp [ancestorAnyMatches]
  | cons p ps ih => simp [ancestorAnyMatches, Bool.or_eq_true, ih]

mutual

theorem childrenMatches_iff (m : CollectionModelT) (tags : TagMap) (f : QStr) :
    ∀ (it : CollectionItem),
      ChildrenMatches m tags f it = true ↔ ∃ d ∈ subtreeItems it, ItemMatches m d tags f = true
  | .node t d md lvl cs => by
    rw [ChildrenMatches, subtreeItems]
    have h := childrenAnyMatches_iff m tags f cs
    simp [Bool.or_eq_true, h]

theorem childrenAnyMatches_iff (m : CollectionModelT) (tags : TagMap) (f : QStr) :
    ∀ (cs : List CollectionItem),
      childrenAnyMatches m tags f cs = true ↔ ∃ d ∈ subtreeItemsList cs, ItemMatches m d tags f = true
  | [] => by simp [childrenAnyMatches, subtreeItemsList]
  | c :: cs => by
    rw [childrenAnyMatches, subtreeItemsList]
    have h1 := childrenMatches_iff m tags f c
    have h2 := childrenAnyMatches_iff m tags f cs
    simp only [Bool.or_eq_true, h1, h2, List.mem_append]
    constructor
    · rintro (⟨d, hd, hp⟩ | ⟨d, hd, hp⟩)
      · exact ⟨d, Or.inl hd, hp⟩
      · exact ⟨d, Or.inr hd, hp⟩
    · rintro ⟨d, hd | hd, hp⟩
      · exact Or.inl ⟨d, hd, hp⟩
      · exact Or.inr ⟨d, hd, hp⟩

end

theorem visibleDecision_eq (m : CollectionModelT) (item : CollectionItem)
    (ancestors : List CollectionItem) (tags : TagMap) (f : QStr) :
    VisibleDecision m item ancestors tags f =
      (ItemMatches m item tags f || ancestorAnyMatches m tags f ancestors
        || ChildrenMatches m tags f item) := by
  unfold VisibleDecision
  by_cases h1 : ItemMatches m item tags f = true <;>
    by_cases h2 : ancestorAnyMatches m tags f ancestors = true <;>
      simp [h1, h2]

/-- C1: for every tree node other than the loading-indicator sentinel and
every parsed filter, the node is visible iff the node itself matches, or some
ancestor matches, or some node of its subtree (the depth-first descendant
scan) matches; the three disjuncts are a plain inclusive OR.  Stated both for
the visibility decision on an arbitrary parsed pair and for the full
filterAcceptsRow on the filter string it parses. -/
theorem filter_visibility_three_way_or (m : CollectionModelT) (item : CollectionItem)
    (ancestors : List CollectionItem) (tags : TagMap) (free : QStr) (raw : QStr)
    (h1 : ¬ item.typ = ItemType.LoadingIndicator) (h2 : raw ≠ []) :
    (VisibleDecision m item ancestors tags free = true ↔
      (ItemMatches m item tags free = true
       ∨ (∃ a ∈ ancestors, ItemMatches m a tags free = true)
       ∨ (∃ d ∈ subtreeItems item, ItemMatches m d tags free = true)))
    ∧ (filterAcceptsRow (some m) true (some (item, ancestors)) raw = true ↔
      (ItemMatches m item (CollectionFilterParse raw).2 (CollectionFilterParse raw).1 = true
       ∨ (∃ a ∈ ancestors, ItemMatches m a (CollectionFilterParse raw).2 (CollectionFilterParse raw).1 = true)
       ∨ (∃ d ∈ subtreeItems item, ItemMatches m d (CollectionFilterParse raw).2 (CollectionFilterParse raw).1 = true))) := by
  have key : ∀ (tg : TagMap) (fr : QStr),
      VisibleDecision m item ancestors tg fr = true ↔
        (ItemMatches m item tg fr = true
         ∨ (∃ a ∈ ancestors, ItemMatches m a tg fr = true)
         ∨ (∃ d ∈ subtreeItems item, ItemMatches m d tg fr = true)) := by
    intro tg fr
    rw [visibleDecision_eq]
    simp [Bool.or_eq_true, ancestorAnyMatches_iff, childrenMatches_iff, or_assoc]
  refine ⟨key tags free, ?_⟩
  show (if item.typ = ItemType.LoadingIndicator then true
        else if raw = [] then true
        else VisibleDecision m item ancestors (CollectionFilterParse raw).2 (CollectionFilterParse raw).1) = true ↔ _
  rw [if_neg h1, if_neg h2]
  exact key _ _

/-- Closed instance of C1: a song leaf whose artist matches an artist tag is
visible together with its container, derived through the theorem. -/
theorem filter_visibility_three_way_or_witness :
    VisibleDecision sampleModel sampleSongItem [sampleContainer]
      [("artist".data, "daft".data)] [] = true := by
  have h := filter_visibility_three_way_or sampleModel sampleSongItem [sampleContainer]
    [("artist".data, "daft".data)] [] ("artist:daft".data) (by decide) (by decide)
  exact h.1.mpr (Or.inl (by decide))

/-- C9: a missing source tree model, an invalid node index, or an index that
resolves to no item makes filterAcceptsRow report the row non-visible (return
false) instead of failing. -/
theorem filter_fail_closed (source : Option CollectionModelT) (indexValid : Bool)
    (item : Option (CollectionItem × List CollectionItem)) (raw : QStr)
    (h : source = none ∨ indexValid = false ∨ item = none) :
    filterAcceptsRow source indexValid item raw = false := by
  rcases h with h | h | h
  · subst h; rfl
  · subst h; cases source <;> rfl
  · subst h; cases source <;> cases indexValid <;> rfl

/-- Closed instance of C9 at a missing source model. -/
theorem filter_fail_closed_witness :
    filterAcceptsRow none true (some (sampleSongItem, [])) ("x".data) = false :=
  filter_fail_closed none true (some (sampleSongItem, [])) ("x".data) (Or.inl rfl)

/-- C7 fails on the code: stripping the colons from the unrecognized tag token
`unknown:foo` keeps the prefix, so the free text is `unknownfoo bar`, not
`foo bar`. -/
theorem parse_unknown_tag_counterexample :
    (CollectionFilterParse ("unknown:foo bar".data)).1 ≠ "foo bar".data ∧
    (CollectionFilterParse ("unknown:foo bar".data)).2 = [] := by
  constructor <;> decide

/-- C7 amended: parsing `unknown:foo bar` yields an empty tag map and free
text `unknownfoo bar` (the token keeps its unrecognized prefix; only the colon
is removed). -/
theorem parse_unknown_tag_amended :
    CollectionFilterParse ("unknown:foo bar".data) = ("unknownfoo bar".data, []) := by
  decide

theorem hasWs_cons (c : Char) (s : QStr) : hasWs (c :: s) = (isWs c || hasWs s) := by
  simp [hasWs]

theorem trimLeft_noWs (s : QStr) (h : hasWs s = false) : trimLeft s = s := by
  cases s with
  | nil => rfl
  | cons c r =>
    rw [hasWs_cons] at h
    simp only [Bool.or_eq_false_iff] at h
    simp [trimLeft, h.1]

theorem hasWs_reverse (s : QStr) : hasWs s.reverse = hasWs s := by
  simp [hasWs, List.any_eq_true]

theorem trim_noWs (s : QStr) (h : hasWs s = false) : trim s = s := by
  unfold trim
  rw [trimLeft_noWs s h, trimLeft_noWs s.reverse (by rw [hasWs_reverse]; exact h), List.reverse_reverse]

theorem removeColons_id (s : QStr) (h : ':' ∉ s) : removeColons s = s := by
  induction s with
  | nil => rfl
  | cons c r ih =>
    simp only [List.mem_cons, not_or] at h
    simp [removeColons, Ne.symm h.1, ih h.2]

theorem sectionBefore_append (tag rest : QStr) (h : ':' ∉ tag) :
    sectionBefore (tag ++ ':' :: rest) = tag := by
  induction tag with
  | nil => simp [sectionBefore]
  | cons c r ih =>
    simp only [List.mem_cons, not_or] at h
    simp [sectionBefore, Ne.symm h.1, ih h.2]

theorem sectionAfter_append (tag rest : QStr) (h : ':' ∉ tag) :
    sectionAfter (tag ++ ':' :: rest) = rest := by
  induction tag with
  | nil => simp [sectionAfter]
  | cons c r ih =>
    simp only [List.mem_cons, not_or] at h
    simp [sectionAfter, Ne.symm h.1, ih h.2]

theorem tokenizeAux_split (s2 : QStr) :
    ∀ (s1 acc : QStr), tokenizeAux (s1 ++ ' ' :: s2) acc = tokenizeAux s1 acc ++ tokenizeAux s2 [] := by
  intro s1
  induction s1 with
  | nil =>
    intro acc
    by_cases h : acc = [] <;> simp [tokenizeAux, h, isWs]
  | cons c r ih =>
    intro acc
    by_cases hw : isWs c <;> by_cases h : acc = [] <;>
      simp [tokenizeAux, hw, h, ih]

theorem tokenizeAux_noWs :
    ∀ (t : QStr), t ≠ [] → hasWs t = false → ∀ (acc : QStr), tokenizeAux t acc = [acc.reverse ++ t] := by
  intro t
  induction t with
  | nil => intro h; exact absurd rfl h
  | cons c r ih =>
    intro _ hws acc
    rw [hasWs_cons] at hws
    simp only [Bool.or_eq_false_iff] at hws
    rw [tokenizeAux]
    rw [if_neg (by simp [hws.1])]
    cases hr : r with
    | nil => simp [tokenizeAux]
    | cons d q =>
      rw [← hr, ih (by rw [hr]; simp) hws.2 (c :: acc)]
      simp

theorem tokenize_append_token (s tok : QStr) (h1 : tok ≠ []) (h2 : hasWs tok = false) :
    tokenize (s ++ ' ' :: tok) = tokenize s ++ [tok] := by
  unfold tokenize
  rw [tokenizeAux_split tok s [], tokenizeAux_noWs tok h1 h2 []]
  simp

theorem parse_append_token (s tok : QStr) (h1 : tok ≠ []) (h2 : hasWs tok = false) :
    CollectionFilterParse (s ++ ' ' :: tok) = parseStep (CollectionFilterParse s) tok := by
  unfold CollectionFilterParse
  rw [tokenize_append_token s tok h1 h2, List.foldl_append]
  rfl

theorem isWs_colon : isWs ':' = false := by decide

theorem kColumnsContainsCI_nil : kColumnsContainsCI [] = false := by decide

theorem parseStep_tagToken (st : QStr × TagMap) (tag value : QStr)
    (htws : hasWs tag = false) (htc : ':' ∉ tag)
    (hrec : kColumnsContainsCI tag = true)
    (hvws : hasWs value = false) (hvc : ':' ∉ value) (hvne : value ≠ []) :
    parseStep st (tag ++ ':' :: value) = (st.1, mapInsert tag value st.2) := by
  have htagne : tag ≠ [] := by
    intro he; rw [he] at hrec; rw [kColumnsContainsCI_nil] at hrec; exact Bool.false_ne_true hrec
  have hmem : ':' ∈ tag ++ ':' :: value := by simp
  simp only [parseStep, hmem, if_true, sectionBefore_append tag value htc,
    sectionAfter_append tag value htc, removeColons_id tag htc, removeColons_id value hvc,
    trim_noWs tag htws, trim_noWs value hvws, hrec, ite_true, ne_eq, htagne, hvne,
    not_false_eq_true, and_self]

theorem parseStep_discardToken (st : QStr × TagMap) (tag rest : QStr)
    (htc : ':' ∉ tag)
    (hrec : kColumnsContainsCI tag = true)
    (hempty : trim (removeColons rest) = []) :
    parseStep st (tag ++ ':' :: rest) = st := by
  have hmem : ':' ∈ tag ++ ':' :: rest := by simp
  simp only [parseStep, hmem, if_true, sectionBefore_append tag rest htc,
    sectionAfter_append tag rest htc, hrec, ite_true, hempty, ne_eq,
    not_true_eq_false, and_false, if_false]

theorem mapLookup_mapInsert (k v : QStr) (m : TagMap) :
    mapLookup k (mapInsert k v m) = some v := by
  induction m with
  | nil => simp [mapInsert, mapLookup]
  | cons p rest ih =>
    obtain ⟨k1, v1⟩ := p
    by_cases h : k1 = k
    · simp [mapInsert, h, mapLookup]
    · simp [mapInsert, h, mapLookup, ih]

theorem mem_keys_mapInsert (a k v : QStr) (m : TagMap)
    (h : a ∈ (mapInsert k v m).map Prod.fst) : a = k ∨ a ∈ m.map Prod.fst := by
  induction m with
  | nil => simpa [mapInsert] using h
  | cons p rest ih =>
    obtain ⟨k1, v1⟩ := p
    by_cases hk : k1 = k
    · simp only [mapInsert, hk, if_true, List.map_cons, List.mem_cons] at h
      rcases h with h | h
      · exact Or.inl h
      · exact Or.inr (by simp [h])
    · simp only [mapInsert, hk, if_false, List.map_cons, List.mem_cons] at h
      rcases h with h | h
      · exact Or.inr (by simp [h])
      · rcases ih h with h1 | h1
        · exact Or.inl h1
        · exact Or.inr (by simp [h1])

theorem KeysNodup_mapInsert (k v : QStr) (m : TagMap) (h : KeysNodup m) :
    KeysNodup (mapInsert k v m) := by
  induction m with
  | nil => simp [KeysNodup, mapInsert]
  | cons p rest ih =>
    obtain ⟨k1, v1⟩ := p
    simp only [KeysNodup, List.map_cons, List.nodup_cons] at h
    by_cases hk : k1 = k
    · subst hk
      rw [show mapInsert k1 v ((k1, v1) :: rest) = (k1, v) :: rest from by simp [mapInsert]]
      simp only [KeysNodup, List.map_cons, List.nodup_cons]
      exact ⟨h.1, h.2⟩
    · simp only [mapInsert, if_neg hk, KeysNodup, List.map_cons, List.nodup_cons]
      refine ⟨?_, ih h.2⟩
      intro hmem
      rcases mem_keys_mapInsert k1 k v rest hmem with h1 | h1
      · exact hk h1
      · exact h.1 h1

theorem parseStep_keysNodup (st : QStr × TagMap) (tok : QStr) (h : KeysNodup st.2) :
    KeysNodup (parseStep st tok).2 := by
  simp only [parseStep]
  repeat' split
  all_goals first | exact h | exact KeysNodup_mapInsert _ _ _ h

theorem parse_keysNodup (raw : QStr) : KeysNodup (CollectionFilterParse raw).2 := by
  unfold CollectionFilterParse
  generalize tokenize raw = toks
  have key : ∀ (st : QStr × TagMap), KeysNodup st.2 → KeysNodup ((toks.foldl parseStep st)).2 := by
    induction toks with
    | nil => intro st h; exact h
    | cons t ts ih => intro st h; exact ih _ (parseStep_keysNodup st t h)
  exact key ([], []) (by simp [KeysNodup])

/-- C2 fails on the code: `tags.insert(tag, value)` stores the tag exactly as
written (lowercasing happens only later, inside TagMatches), so `Artist:a` is
recorded under key `Artist`, and `Artist:a artist:b` produces two map entries
whose lowercased tag names coincide — not at most one entry per tag. -/
theorem parse_tag_lowercase_counterexample :
    (CollectionFilterParse ("Artist:a".data)).2 = [("Artist".data, "a".data)]
    ∧ (CollectionFilterParse ("Artist:a".data)).2 ≠ [("artist".data, "a".data)]
    ∧ ((CollectionFilterParse ("Artist:a artist:b".data)).2).map (fun p => lowerStr p.1)
        = ["artist".data, "artist".data] :=
  ⟨by decide, by decide, by decide⟩

/-- C2 amended: a recognized tag token with non-empty halves is recorded under
the tag name exactly as written (case preserved); a later token with the same
exact tag text overwrites the earlier entry (the lookup after the insert
yields the new value), and the map never holds two entries with the same
exact tag text — though tags differing only in letter case occupy separate
entries. -/
theorem parse_tag_insert_exact_case (s tag value : QStr)
    (htws : hasWs tag = false) (htc : ':' ∉ tag)
    (hrec : kColumnsContainsCI tag = true)
    (hvws : hasWs value = false) (hvc : ':' ∉ value) (hvne : value ≠ []) :
    (CollectionFilterParse (s ++ ' ' :: (tag ++ ':' :: value))).2
        = mapInsert tag value (CollectionFilterParse s).2
    ∧ mapLookup tag (CollectionFilterParse (s ++ ' ' :: (tag ++ ':' :: value))).2 = some value
    ∧ KeysNodup (CollectionFilterParse (s ++ ' ' :: (tag ++ ':' :: value))).2 := by
  have h1 : tag ++ ':' :: value ≠ [] := by simp
  have h2 : hasWs (tag ++ ':' :: value) = false := by
    simp only [hasWs] at htws hvws ⊢
    simp [List.any_append, htws, hvws, isWs_colon]
  have hmain : (CollectionFilterParse (s ++ ' ' :: (tag ++ ':' :: value))).2
      = mapInsert tag value (CollectionFilterParse s).2 := by
    rw [parse_append_token s _ h1 h2,
      parseStep_tagToken (CollectionFilterParse s) tag value htws htc hrec hvws hvc hvne]
  refine ⟨hmain, ?_, ?_⟩
  · rw [hmain, mapLookup_mapInsert]
  · exact parse_keysNodup _

/-- Closed instance of the amended C2: `x Artist:Daft` records the pair under
the exact key `Artist`. -/
theorem parse_tag_insert_exact_case_witness :
    (CollectionFilterParse ("x".data ++ ' ' :: ("Artist".data ++ ':' :: "Daft".data))).2
        = mapInsert "Artist".data "Daft".data (CollectionFilterParse ("x".data)).2 :=
  (parse_tag_insert_exact_case ("x".data) ("Artist".data) ("Daft".data)
    (by decide) (by decide) (by decide) (by decide) (by decide) (by decide)).1

/-- C3 fails on the code: the token `artist:` has a recognized tag prefix and
an empty value half, and the loop discards it entirely — it is not appended
to the free text. -/
theorem parse_empty_value_counterexample :
    CollectionFilterParse ("artist:".data) = ([], [])
    ∧ (CollectionFilterParse ("artist:".data)).1 ≠ "artist".data :=
  ⟨by decide, by decide⟩

/-- C3 amended: a token with a recognized tag prefix whose value half trims to
nothing is silently discarded — parsing with the token appended gives exactly
the parse without it, so the token reaches neither the tag map nor the free
text. -/
theorem parse_empty_value_discarded (s tag rest : QStr)
    (htws : hasWs tag = false) (htc : ':' ∉ tag)
    (hrec : kColumnsContainsCI tag = true)
    (hrws : hasWs rest = false)
    (hempty : trim (removeColons rest) = []) :
    CollectionFilterParse (s ++ ' ' :: (tag ++ ':' :: rest)) = CollectionFilterParse s := by
  have h1 : tag ++ ':' :: rest ≠ [] := by simp
  have h2 : hasWs (tag ++ ':' :: rest) = false := by
    simp only [hasWs] at htws hrws ⊢
    simp [List.any_append, htws, hrws, isWs_colon]
  rw [parse_append_token s _ h1 h2,
    parseStep_discardToken (CollectionFilterParse s) tag rest htc hrec hempty]

/-- Closed instance of the amended C3: `x artist:` parses exactly as `x`. -/
theorem parse_empty_value_discarded_witness :
    CollectionFilterParse ("x".data ++ ' ' :: ("artist".data ++ ':' :: [])) = CollectionFilterParse ("x".data) :=
  parse_empty_value_discarded ("x".data) ("artist".data) []
    (by decide) (by decide) (by decide) (by decide) (by decide)

theorem countQ_append (a b : QStr) : countQ (a ++ b) = countQ a + countQ b := by
  simp [countQ, List.countP_append]

theorem countQ_nil : countQ [] = 0 := rfl

theorem totalQ_append (a b : List QStr) : totalQ (a ++ b) = totalQ a + totalQ b := by
  simp [totalQ]

theorem totalQ_singleton (c : QStr) : totalQ [c] = countQ c := by
  simp [totalQ, countQ]

theorem digitChar_ne_qmark (d : Nat) : ¬ digitChar d = '?' := by
  unfold digitChar
  split <;> decide

theorem countQ_cons (c : Char) (s : QStr) :
    countQ (c :: s) = (if c = '?' then 1 else 0) + countQ s := by
  by_cases h : c = '?'
  · simp [countQ, List.countP_cons, h]
    omega
  · simp [countQ, List.countP_cons, h]

theorem countQ_natToStrAux (fuel : Nat) : ∀ (n : Nat) (acc : QStr), countQ (natToStrAux fuel n acc) = countQ acc := by
  induction fuel with
  | zero => intro n acc; rfl
  | succ f ih =>
    intro n acc
    rw [natToStrAux]
    split
    · rw [countQ_cons, if_neg (digitChar_ne_qmark n)]
      omega
    · rw [ih (n / 10) _, countQ_cons, if_neg (digitChar_ne_qmark (n % 10))]
      omega

theorem countQ_intToStr (n : Int) : countQ (intToStr n) = 0 := by
  unfold intToStr natToStr
  split <;> simp [countQ_cons, countQ_natToStrAux, countQ_nil]

theorem countQ_placeholder_join (l : List QStr) :
    countQ (joinSep ",".data (l.map (fun _ => "?".data))) = l.length := by
  induction l with
  | nil => rfl
  | cons x xs ih =>
    cases xs with
    | nil => rfl
    | cons y ys =>
      simp only [List.map_cons] at ih ⊢
      rw [joinSep, countQ_append, countQ_append, ih]
      have h1 : countQ ("?".data) = 1 := by decide
      have h2 : countQ (",".data) = 0 := by decide
      rw [h1, h2]
      simp only [List.length_cons]
      omega

theorem countQ_sqlValueToString_int (value : SqlValue) (h : isIntValue value = true) :
    countQ (sqlValueToString value) = 0 := by
  cases value <;>
    first
    | (rw [sqlValueToString]; rw [countQ_intToStr])
    | simp [isIntValue] at h

theorem AddWhere_inv (st : CollectionQuery) (column : QStr) (value : SqlValue) (op : QStr)
    (h1 : countQ column = 0) (h2 : countQ op = 0)
    (h : queryInv st) : queryInv (AddWhere st column value op) := by
  unfold queryInv at h ⊢
  have hin : countQ (" IN (".data) = 0 := by decide
  have hcl : countQ (")".data) = 0 := by decide
  have hsp : countQ (" ".data) = 0 := by decide
  have hq : countQ (" ?".data) = 1 := by decide
  unfold AddWhere
  split
  · rw [totalQ_append, totalQ_singleton, List.length_append, List.length_map,
      countQ_append, countQ_append, countQ_append, h1, hin, hcl,
      countQ_placeholder_join]
    omega
  · split
    · rename_i hint
      simp only [totalQ_append, totalQ_singleton, countQ_append, h1, h2, hsp,
        countQ_sqlValueToString_int value hint]
      omega
    · split
      · simp only [totalQ_append, totalQ_singleton, countQ_append, h1, h2, hsp, hq,
          List.length_append, List.length_cons, List.length_nil]
        omega
      · simp only [totalQ_append, totalQ_singleton, countQ_append, h1, h2, hsp, hq,
          List.length_append, List.length_cons, List.length_nil]
        omega

theorem AddWhereArtist_inv (st : CollectionQuery) (value : SqlValue)
    (h : queryInv st) : queryInv (AddWhereArtist st value) := by
  unfold queryInv at h ⊢
  unfold AddWhereArtist
  have h2 : countQ ("((artist = ? AND albumartist = '') OR albumartist = ?)".data) = 2 := by decide
  simp only [totalQ_append, totalQ_singleton, h2, List.length_append, List.length_cons,
    List.length_nil]
  omega

theorem AddWhereRating_inv (st : CollectionQuery) (q : ℚ) (op : QStr)
    (h : queryInv st) : queryInv (AddWhereRating st q op) := by
  unfold AddWhereRating
  split
  · exact AddWhere_inv _ _ _ _ (by decide) (by decide) h
  · split
    · exact AddWhere_inv _ _ _ _ (by decide) (by decide) h
    · split
      · exact AddWhere_inv _ _ _ _ (by decide) (by decide) h
      · split
        · exact AddWhere_inv _ _ _ _ (by decide) (by decide) h
        · split
          · unfold queryInv at h ⊢
            have h2 : countQ ("(rating<? OR rating>?)".data) = 2 := by decide
            simp only [totalQ_append, totalQ_singleton, h2, List.length_append,
              List.length_cons, List.length_nil]
            omega
          · exact AddWhere_inv _ _ _ _ (by decide) (by decide)
              (AddWhere_inv _ _ _ _ (by decide) (by decide) h)

theorem AddCompilationRequirement_inv (st : CollectionQuery) (b : Bool)
    (h : queryInv st) : queryInv (AddCompilationRequirement st b) := by
  unfold queryInv at h ⊢
  unfold AddCompilationRequirement
  have h2 : countQ ("+compilation_effective = ".data ++ (if b then "1".data else "0".data)) = 0 := by
    cases b <;> decide
  simp only [totalQ_append, totalQ_singleton, h2]
  omega

theorem CollectionQueryInit_inv (songs_table : QStr) (options : CollectionFilterOptions)
    (now : Int) : queryInv (CollectionQueryInit songs_table options now) := by
  unfold queryInv CollectionQueryInit
  have hc : countQ ("ctime > ?".data) = 1 := by decide
  have hu : countQ ("(artist = '' OR album = '' OR title ='')".data) = 0 := by decide
  split <;> split <;>
    simp [totalQ_append, totalQ_singleton, totalQ, hc, hu]

theorem applyOp_inv (st : CollectionQuery) (op : QueryOp)
    (hok : opOK op = true) (h : queryInv st) : queryInv (applyOp st op) := by
  cases op with
  | opWhere c v o =>
    simp only [opOK, Bool.and_eq_true, decide_eq_true_eq] at hok
    exact AddWhere_inv st c v o hok.1 hok.2 h
  | opWhereArtist v => exact AddWhereArtist_inv st v h
  | opWhereRating q o => exact AddWhereRating_inv st q o h
  | opCompilation b => exact AddCompilationRequirement_inv st b h

/-- C4: after any operation sequence applied to a constructed builder, the
number of placeholders over the WHERE fragments in emission order equals the
length of the bound-value list, both for the accumulated clauses and for the
clause list Exec joins (which only adds the placeholder-free
`unavailable = 0`); every operation preserves the lock-step invariant. -/
theorem query_placeholder_lockstep (table : QStr) (options : CollectionFilterOptions)
    (now : Int) (ops : List QueryOp) (hok : ops.all opOK = true) :
    queryInv (applyOps (CollectionQueryInit table options now) ops)
    ∧ totalQ (execClauses (applyOps (CollectionQueryInit table options now) ops))
        = (applyOps (CollectionQueryInit table options now) ops).bound_values.length := by
  have key : ∀ (l : List QueryOp) (st : CollectionQuery), l.all opOK = true → queryInv st →
      queryInv (applyOps st l) := by
    intro l
    induction l with
    | nil => intro st _ h; exact h
    | cons op rest ih =>
      intro st hall h
      simp only [List.all_cons, Bool.and_eq_true] at hall
      exact ih (applyOp st op) hall.2 (applyOp_inv st op hall.1 h)
  have hmain := key ops (CollectionQueryInit table options now) hok
    (CollectionQueryInit_inv table options now)
  refine ⟨hmain, ?_⟩
  unfold execClauses
  unfold queryInv at hmain
  have hu : countQ ("unavailable = 0".data) = 0 := by decide
  split <;> simp [totalQ_append, totalQ_singleton, hu, hmain]

/-- Closed instance of C4 on a sequence exercising every operation kind. -/
theorem query_placeholder_lockstep_witness :
    queryInv (applyOps (CollectionQueryInit ("songs".data) sampleOpts 1000) sampleOps) :=
  (query_placeholder_lockstep ("songs".data) sampleOpts 1000 sampleOps (by decide)).1

theorem AddWhere_bound (st : CollectionQuery) (column : QStr) (value : SqlValue) (op : QStr)
    (h1 : ¬ lowerStr op = "in".data) (h2 : isIntValue value = false)
    (h3 : isNullStringValue value = false) :
    AddWhere st column value op =
      { st with where_clauses := st.where_clauses ++ [column ++ " ".data ++ op ++ " ?".data],
                bound_values := st.bound_values ++ [value] } := by
  unfold AddWhere
  rw [if_neg h1, if_neg (by simp [h2]), if_neg (by simp [h3])]

/-- C5: AddWhereRating with operator `=` appends exactly the clauses
`rating < ?` then `rating > ?` with bound values parsed+0.001 and
parsed-0.001 in that order; at rating 4.0 the bounds are 4.001 and 3.999. -/
theorem rating_equality_tolerance (st : CollectionQuery) (p : ℚ) :
    AddWhereRating st p "=".data =
      { st with
        where_clauses := st.where_clauses ++ ["rating < ?".data, "rating > ?".data],
        bound_values := st.bound_values ++ [.vFloat (p + 1/1000), .vFloat (p - 1/1000)] }
    ∧ (AddWhereRating st 4 "=".data).bound_values
        = st.bound_values ++ [.vFloat (4001/1000), .vFloat (3999/1000)] := by
  have key : ∀ (q : ℚ), AddWhereRating st q "=".data =
      { st with
        where_clauses := st.where_clauses ++ ["rating < ?".data, "rating > ?".data],
        bound_values := st.bound_values ++ [.vFloat (q + 1/1000), .vFloat (q - 1/1000)] } := by
    intro q
    unfold AddWhereRating
    rw [if_neg (by decide), if_neg (by decide), if_neg (by decide), if_neg (by decide),
      if_neg (by decide)]
    rw [AddWhere_bound st ("rating".data) (.vFloat (q + 1/1000)) ("<".data) (by decide) rfl rfl,
      AddWhere_bound _ ("rating".data) (.vFloat (q - 1/1000)) (">".data) (by decide) rfl rfl]
    simp [List.append_assoc]
  have e1 : (4 : ℚ) + 1/1000 = 4001/1000 := by norm_num
  have e2 : (4 : ℚ) - 1/1000 = 3999/1000 := by norm_num
  refine ⟨key p, ?_⟩
  rw [key 4, e1, e2]

/-- C6: a non-IN AddWhere with an integer value inlines the rendered integer
into the clause text and adds no bound value. -/
theorem integer_inline_no_binding (st : CollectionQuery) (column : QStr) (n : Int) (op : QStr)
    (h : ¬ lowerStr op = "in".data) :
    AddWhere st column (.vInt n) op =
      { st with where_clauses := st.where_clauses ++
          [column ++ " ".data ++ op ++ " ".data ++ intToStr n] }
    ∧ (AddWhere st column (.vInt n) op).bound_values = st.bound_values := by
  have key : AddWhere st column (.vInt n) op =
      { st with where_clauses := st.where_clauses ++
          [column ++ " ".data ++ op ++ " ".data ++ intToStr n] } := by
    unfold AddWhere
    rw [if_neg h, if_pos (by rfl)]
    rfl
  exact ⟨key, by rw [key]⟩

/-- Closed instance of C6: `AddWhere("year", 2020, "=")` emits the literal
clause `year = 2020` and binds nothing. -/
theorem integer_inline_no_binding_witness :
    AddWhere sampleQuery ("year".data) (.vInt 2020) ("=".data) =
      { sampleQuery with where_clauses := ["year = 2020".data] } := by
  rw [(integer_inline_no_binding sampleQuery ("year".data) 2020 ("=".data) (by decide)).1]
  decide

/-- C10: AddWhere with operator IN and an empty list appends the clause
`column IN ()` with zero placeholders beyond those of the column name, adds no
bound value, and the clause is among those Exec joins into the prepared
statement. -/
theorem empty_in_list_clause (st : CollectionQuery) (column : QStr) :
    AddWhere st column (.vStrList []) ("IN".data) =
      { st with where_clauses := st.where_clauses ++ [column ++ " IN ()".data] }
    ∧ countQ (" IN ()".data) = 0
    ∧ (column ++ " IN ()".data) ∈ execClauses (AddWhere st column (.vStrList []) ("IN".data)) := by
  have key : AddWhere st column (.vStrList []) ("IN".data) =
      { st with where_clauses := st.where_clauses ++ [column ++ " IN ()".data] } := by
    unfold AddWhere
    rw [if_pos (by decide)]
    simp [toStringList, joinSep]
  refine ⟨key, by decide, ?_⟩
  rw [key]
  unfold execClauses
  split <;> simp

/-- C8 fails on the code: Exec's check is `limit_ != -1`, so the negative
stored limit -2 still emits a LIMIT clause in the rendered SQL. -/
theorem limit_negative_counterexample :
    sampleQueryLimNeg.limit < 0
    ∧ occursIn (" LIMIT -2".data) (renderSql sampleQueryLimNeg) = true :=
  ⟨by decide, by decide⟩

/-- C8 amended: Exec appends `LIMIT n` iff the stored limit n differs from -1
(the unset marker); in particular negative limits other than -1 do emit a
LIMIT clause. -/
theorem limit_emitted_iff_not_unset (st : CollectionQuery) :
    (st.limit = -1 → renderSqlCore st = renderWithOrder st)
    ∧ (st.limit ≠ -1 →
        renderSqlCore st = renderWithOrder st ++ " LIMIT ".data ++ intToStr st.limit
        ∧ renderSqlCore st ≠ renderWithOrder st) := by
  constructor
  · intro h; unfold renderSqlCore; rw [if_pos h]
  · intro h
    unfold renderSqlCore
    rw [if_neg h]
    refine ⟨rfl, ?_⟩
    intro heq
    have hl := congrArg List.length heq
    have h7 : (" LIMIT ".data).length = 7 := by decide
    simp only [List.length_append, h7] at hl
    omega

/-- Closed instance of the amended C8 at the stored limit 5. -/
theorem limit_emitted_iff_not_unset_witness :
    renderSqlCore sampleQueryLim5
      = renderWithOrder sampleQueryLim5 ++ " LIMIT ".data ++ intToStr sampleQueryLim5.limit :=
  ((limit_emitted_iff_not_unset sampleQueryLim5).2 (by decide)).1
